import Mathlib

/-!
Shallow embedding of the mirror-status view layer (`mirrors/views/__init__.py`)
of the archweb repository, with proofs checking the natural-language
specification against it.

Conventions of the embedding:
* Python `datetime.timedelta` values are represented by their total number of
  microseconds as an `Int`.  Python normalises a timedelta into `days`,
  `seconds` and `microseconds` components with `0 ≤ seconds < 86400` and
  `0 ≤ microseconds < 1000000`; since the divisors are positive this is
  exactly floor division and modulus, i.e. `Int./` and `Int.%` in Lean.
* `datetime.datetime` values are likewise absolute microsecond timestamps
  modelled as `Int`.
* Django model instances compare and hash by primary key, so Python set
  operations over them are id-based.  Sets are modelled as lists; theorems
  that need set extensionality carry the no-duplicate-id hypotheses that hold
  for rows coming out of the database.
* The derived status fields that the external aggregator attaches to URL
  records (`last_sync`, `completion_pct`, `delay`, `duration_avg`,
  `duration_stddev`, `score`) are `Option` fields of the URL record.  Their
  numeric payloads are modelled as `Int`: the view layer only ever uses their
  null-ness and their ordering, never float arithmetic.
* A view handler that can raise `Http404` is a function into `Option`; `none`
  is the Not-Found response.
* The outputs of the external aggregator (`get_mirror_statuses`) are inputs
  (parameters) of the embedded handlers; the handlers only filter, partition
  and sort them, exactly as the Python code does.
-/

/-- A row of the `Mirror` model, as the views use it:
primary key, name, tier, public flag, active flag. -/
structure MirrorRec where
  id : Nat
  name : String
  tier : Int
  public : Bool
  active : Bool
deriving DecidableEq

/-- A row of the `MirrorUrl` model together with the joined mirror columns the
views access (`url.mirror_id`, `url.mirror.tier`) and the derived status
fields the external aggregator annotates onto it. -/
structure MirrorUrlRec where
  id : Nat
  mirror_id : Nat
  mirror_tier : Int
  url : String
  protocol : String
  country : String
  active : Bool
  last_sync : Option Int
  completion_pct : Option Int
  delay : Option Int
  duration_avg : Option Int
  duration_stddev : Option Int
  score : Option Int
deriving DecidableEq

/-- A row of the `MirrorLog` model, as the views use it. -/
structure MirrorLogRec where
  id : Nat
  url_id : Nat
  check_time : Int
  last_sync : Option Int
  duration : Option Int
  is_success : Bool
  location_id : Nat
deriving DecidableEq

/-- The relational store backing the views. -/
structure Db where
  mirrors : List MirrorRec
  urls : List MirrorUrlRec
  logs : List MirrorLogRec

/-- The value `timedelta(days=3)` in microseconds: the staleness threshold of the
status view. -/
def bad_timedelta : Int := 3 * 86400 * 1000000

/-- The value `timedelta(days=7)` in microseconds: the error-log cutoff window of the
mirror detail view. -/
def details_error_cutoff : Int := 7 * 86400 * 1000000

/-- The value `datetime.timedelta.max` in microseconds
(999999999 days, 86399 seconds, 999999 microseconds). -/
def timedeltaMax : Int := 999999999 * 86400 * 1000000 + 86399 * 1000000 + 999999

/-- The `days` component of a Python timedelta given in microseconds
(floor division, as Python normalises). -/
def timedeltaDays (us : Int) : Int := us / 86400000000

/-- The `seconds` component of a Python timedelta given in microseconds. -/
def timedeltaSeconds (us : Int) : Int := us % 86400000000 / 1000000

/-- The branch of `MirrorStatusJSONEncoder.default` on a timedelta:
`obj.days * 24 * 3600 + obj.seconds`. -/
def timedeltaEncode (us : Int) : Int :=
  timedeltaDays us * 24 * 3600 + timedeltaSeconds us

/-- The tier screen of the status loop:
`if tier is not None and url.mirror.tier != tier: continue`.
A URL passes when no tier was given or its mirror's tier matches. -/
def tierPass (tier : Option Int) (u : MirrorUrlRec) : Bool :=
  match tier with
  | some t => decide (u.mirror_tier = t)
  | none => true

/-- The staleness test of the status loop:
`not url.delay or url.delay > bad_timedelta`.
In Python, `not url.delay` is true when the delay is `None` and also when it
is `timedelta(0)`, because a zero timedelta is falsy. -/
def delayIsBad : Option Int → Bool
  | none => true
  | some d => decide (d = 0) || decide (bad_timedelta < d)

/-- The good/bad partition loop of the `status` view: screens by tier, skips
URLs whose `completion_pct` is null, and routes the remaining URLs to the bad
or the good list by `delayIsBad`, preserving input order (the loop appends;
the recursion prepends the head to the partition of the tail). -/
def statusPartition (tier : Option Int) :
    List MirrorUrlRec → List MirrorUrlRec × List MirrorUrlRec
  | [] => ([], [])
  | u :: rest =>
    let p := statusPartition tier rest
    if tierPass tier u = true then
      if u.completion_pct = none then p
      else if delayIsBad u.delay = true then (p.1, u :: p.2)
      else (u :: p.1, p.2)
    else p

/-- Sort key of the good list: `attrgetter('score')`.  A Python 2 `None`
compares below every number, which is `⊥` in `WithBot Int`. -/
def scoreKey (u : MirrorUrlRec) : WithBot Int :=
  match u.score with
  | none => ⊥
  | some s => (s : WithBot Int)

/-- Sort key of the bad list: `lambda u: u.delay or timedelta.max`.  The
alternative `timedelta.max` is taken when the delay is falsy, i.e. `None` or
the zero timedelta. -/
def badDelayKey (u : MirrorUrlRec) : Int :=
  match u.delay with
  | none => timedeltaMax
  | some d => if d = 0 then timedeltaMax else d

/-- The comparison `sorted(good_urls, key=attrgetter('score'))` sorts by. -/
def goodOrder (a b : MirrorUrlRec) : Prop := scoreKey a ≤ scoreKey b

/-- The comparison `sorted(bad_urls, key=lambda u: u.delay or timedelta.max)`
sorts by. -/
def badOrder (a b : MirrorUrlRec) : Prop := badDelayKey a ≤ badDelayKey b

/-- The comparison `sorted(..., key=attrgetter('url'))` sorts by. -/
def urlOrder (a b : MirrorUrlRec) : Prop := a.url ≤ b.url

instance : DecidableRel goodOrder :=
  fun a b => inferInstanceAs (Decidable (scoreKey a ≤ scoreKey b))

instance : DecidableRel badOrder :=
  fun a b => inferInstanceAs (Decidable (badDelayKey a ≤ badDelayKey b))

instance : DecidableRel urlOrder :=
  fun a b => inferInstanceAs (Decidable (a.url ≤ b.url))

instance : IsTotal MirrorUrlRec goodOrder := ⟨fun a b => le_total (scoreKey a) (scoreKey b)⟩

instance : IsTrans MirrorUrlRec goodOrder := ⟨fun _ _ _ h h' => le_trans h h'⟩

instance : IsTotal MirrorUrlRec badOrder := ⟨fun a b => le_total (badDelayKey a) (badDelayKey b)⟩

instance : IsTrans MirrorUrlRec badOrder := ⟨fun _ _ _ h h' => le_trans h h'⟩

instance : IsTotal MirrorUrlRec urlOrder := ⟨fun a b => le_total a.url b.url⟩

instance : IsTrans MirrorUrlRec urlOrder := ⟨fun _ _ _ h h' => le_trans h h'⟩

/-- One entry of the `get_mirror_errors()` output as the status view consumes
it: a record whose `url` key carries the joined URL (and mirror) row. -/
structure ErrorEntry where
  url : MirrorUrlRec
  error : String
  error_count : Nat
deriving DecidableEq

/-- The query `SELECT MAX(check_time) FROM mirrors_mirrorlog`: SQL `MAX` over the rows,
`NULL` when there are none. -/
def sqlMaxCheckTime : List MirrorLogRec → Option Int
  | [] => none
  | l :: rest =>
    match sqlMaxCheckTime rest with
    | none => some l.check_time
    | some t => some (max l.check_time t)

/-- The function `status_last_modified(request, *args, **kwargs)`: runs the global
`MAX(check_time)` query and ignores the captured view arguments — the `tier`
keyword argument of the decorated views is received and discarded. -/
def status_last_modified (logs : List MirrorLogRec) (tier : Option Int) : Option Int :=
  sqlMaxCheckTime logs

/-- The template context the `status` view renders (plus the conditional-GET
last-modified value its `condition` decorator computes for the request). -/
structure StatusContext where
  good_urls : List MirrorUrlRec
  bad_urls : List MirrorUrlRec
  error_logs : List ErrorEntry
  last_modified : Option Int
  tier : Option Int
deriving DecidableEq

/-- The body of the `status` view past the tier check: partition, sorting and
tier-filtering of error logs.  `statusUrls` and `errorLogs` are the outputs of
the external aggregator calls `get_mirror_statuses()['urls']` and
`get_mirror_errors()`. -/
def statusBuild (logs : List MirrorLogRec) (statusUrls : List MirrorUrlRec)
    (errorLogs : List ErrorEntry) (tier : Option Int) : StatusContext :=
  let p := statusPartition tier statusUrls
  { good_urls := List.insertionSort goodOrder p.1
    bad_urls := List.insertionSort badOrder p.2
    error_logs :=
      match tier with
      | some t => errorLogs.filter (fun log => decide (log.url.mirror_tier = t))
      | none => errorLogs
    last_modified := status_last_modified logs tier
    tier := tier }

/-- The `status` view.  `tierChoices` stands for the first components of
`Mirror.TIER_CHOICES` (defined in `mirrors/models.py`, outside this file),
kept abstract as a parameter; a supplied tier not among them raises
`Http404` (`none`). -/
def status (tierChoices : List Int) (logs : List MirrorLogRec)
    (statusUrls : List MirrorUrlRec) (errorLogs : List ErrorEntry)
    (tier : Option Int) : Option StatusContext :=
  match tier with
  | some t =>
    if t ∈ tierChoices then some (statusBuild logs statusUrls errorLogs (some t))
    else none
  | none => some (statusBuild logs statusUrls errorLogs none)

/-- The JSON document the `status_json` view serializes (plus the
conditional-GET last-modified value of its `condition` decorator). -/
structure StatusJson where
  urls : List MirrorUrlRec
  version : Nat
  last_modified : Option Int
deriving DecidableEq

/-- The `status_json` view: same tier validation as `status`, then the
aggregator payload filtered to the tier, tagged with `version = 3`. -/
def status_json (tierChoices : List Int) (logs : List MirrorLogRec)
    (statusUrls : List MirrorUrlRec) (tier : Option Int) : Option StatusJson :=
  match tier with
  | some t =>
    if t ∈ tierChoices then
      some { urls := statusUrls.filter (fun u => decide (u.mirror_tier = t))
             version := 3
             last_modified := status_last_modified logs (some t) }
    else none
  | none =>
    some { urls := statusUrls
           version := 3
           last_modified := status_last_modified logs none }

/-- The good/bad partition property exactly as the specification states it,
over the partition the code computes: after tier screening, a URL whose
completion_pct is null is in neither list; a URL with a null delay or a delay
strictly greater than 3 days is in the bad list; every other URL is in the
good list. -/
def specGoodBadPartition (tier : Option Int) (urls : List MirrorUrlRec) : Prop :=
  ∀ u ∈ urls, tierPass tier u = true →
    (u.completion_pct = none →
      u ∉ (statusPartition tier urls).1 ∧ u ∉ (statusPartition tier urls).2) ∧
    (u.completion_pct ≠ none →
      (u.delay = none ∨ ∃ d, u.delay = some d ∧ bad_timedelta < d) →
      u ∈ (statusPartition tier urls).2) ∧
    (u.completion_pct ≠ none → u.delay ≠ none →
      (∀ d, u.delay = some d → d ≤ bad_timedelta) →
      u ∈ (statusPartition tier urls).1)

/-- The bad-list sort key exactly as the specification states it: the delay,
with only a null delay treated as the maximum. -/
def specDelayKey (u : MirrorUrlRec) : WithTop Int :=
  match u.delay with
  | none => ⊤
  | some d => (d : WithTop Int)

/-- The bad-list ordering exactly as the specification states it: ascending
by delay, a null delay after every non-null delay. -/
def specBadOrder (a b : MirrorUrlRec) : Prop := specDelayKey a ≤ specDelayKey b

instance : DecidableRel specBadOrder :=
  fun a b => inferInstanceAs (Decidable (specDelayKey a ≤ specDelayKey b))

/-- The ordering of the status lists exactly as the specification claims it:
the good list pairwise ascending by score, the bad list pairwise ascending by
delay with a null delay after every non-null delay. -/
def specStatusSorted (tierChoices : List Int) (logs : List MirrorLogRec)
    (statusUrls : List MirrorUrlRec) (errorLogs : List ErrorEntry)
    (tier : Option Int) : Prop :=
  ∀ ctx, status tierChoices logs statusUrls errorLogs tier = some ctx →
    ctx.good_urls.Pairwise goodOrder ∧ ctx.bad_urls.Pairwise specBadOrder

/-- Test fixture: a checked URL whose delay is the zero timedelta. -/
def uZero : MirrorUrlRec :=
  { id := 1, mirror_id := 1, mirror_tier := 1, url := "a", protocol := "https",
    country := "DE", active := true, last_sync := some 0,
    completion_pct := some 100, delay := some 0, duration_avg := none,
    duration_stddev := none, score := some 5 }

/-- Test fixture: a checked URL whose delay is four days. -/
def uFour : MirrorUrlRec :=
  { uZero with
    id := 2
    url := "b"
    delay := some (4 * 86400 * 1000000)
    score := some 1 }

/-- Test fixture: a checked URL whose delay is one day. -/
def uGood : MirrorUrlRec :=
  { uZero with
    id := 3
    url := "c"
    delay := some 86400000000 }

/-- Test fixture: a single check log with check_time 5. -/
def logFive : MirrorLogRec :=
  { id := 1, url_id := 1, check_time := 5, last_sync := none, duration := none,
    is_success := true, location_id := 1 }

/-- Modelled from the spec: `get_mirror_errors` is defined in
`mirrors/utils.py`, which is not part of this source tree.  Per the spec it
extracts the error logs — failed checks within the cutoff window — of the
given mirror's URLs, and per the spec's authorization invariant
`show_all=False` restricts to active URLs while `show_all=True` lifts that
restriction. -/
def get_mirror_errors (db : Db) (mirror_id : Nat) (cutoff : Int)
    (show_all : Bool) (nowT : Int) : List MirrorLogRec :=
  db.logs.filter (fun l =>
    !l.is_success && decide (nowT - cutoff ≤ l.check_time) &&
    db.urls.any (fun u =>
      decide (u.id = l.url_id) && decide (u.mirror_id = mirror_id) &&
      (show_all || u.active)))

/-- The list `mirror.urls` as the detail view collects it: the mirror's URL rows,
restricted to `active=True` for an unauthenticated caller. -/
def mirrorVisibleUrls (db : Db) (authorized : Bool) (m : MirrorRec) :
    List MirrorUrlRec :=
  let a := db.urls.filter (fun u => decide (u.mirror_id = m.id))
  if authorized then a else a.filter (fun u => u.active)

/-- The dummy-data padding of the detail view: the six derived fields set to
`None`. -/
def nullDerived (u : MirrorUrlRec) : MirrorUrlRec :=
  { u with
    last_sync := none
    completion_pct := none
    delay := none
    duration_avg := none
    duration_stddev := none
    score := none }

/-- The local `checked_urls`: the aggregator-output URLs belonging to the mirror
(`{url for url in status_info['urls'] if url.mirror_id == mirror.id}`). -/
def checkedUrls (statusUrls : List MirrorUrlRec) (m : MirrorRec) :
    List MirrorUrlRec :=
  statusUrls.filter (fun u => decide (u.mirror_id = m.id))

/-- The local `other_urls`: the visible URLs not in the checked set — Django model
instances equal by primary key, so the set difference is id-based — padded
with null derived fields. -/
def otherUrls (db : Db) (authorized : Bool) (statusUrls : List MirrorUrlRec)
    (m : MirrorRec) : List MirrorUrlRec :=
  ((mirrorVisibleUrls db authorized m).filter (fun u =>
    !((checkedUrls statusUrls m).any (fun c => decide (c.id = u.id))))).map
    nullDerived

/-- The template context of the `mirror_details` view. -/
structure DetailsContext where
  mirror : MirrorRec
  urls : List MirrorUrlRec
  cutoff : Int
  error_logs : List MirrorLogRec
deriving DecidableEq

/-- The `mirror_details` view: Not-Found for an unknown name or, for an
unauthenticated caller, a non-public or inactive mirror; otherwise the
checked/unchecked URL partition sorted by URL string, and the error logs
fetched with `show_all=True`.  `statusUrls` is the output of the external
`get_mirror_statuses(mirror_id=..., show_all=authorized)['urls']` call.  The
Python set comprehension, set difference and union compare Django model
instances, which are equal exactly when their primary keys are. -/
def mirror_details (db : Db) (authorized : Bool) (statusUrls : List MirrorUrlRec)
    (nowT : Int) (name : String) : Option DetailsContext :=
  match db.mirrors.find? (fun m => decide (m.name = name)) with
  | none => none
  | some mirror =>
    if !authorized && (!mirror.public || !mirror.active) then none
    else
      some { mirror := mirror
             urls := List.insertionSort urlOrder
               (checkedUrls statusUrls mirror ++
                otherUrls db authorized statusUrls mirror)
             cutoff := details_error_cutoff
             error_logs := get_mirror_errors db mirror.id details_error_cutoff true nowT }

/-- The JSON document of the `mirror_details_json` view. -/
structure DetailsJson where
  urls : List MirrorUrlRec
  version : Nat
deriving DecidableEq

/-- The `mirror_details_json` view: same Not-Found contract as the HTML
detail view; the payload is the aggregator output plus `version = 3`. -/
def mirror_details_json (db : Db) (authorized : Bool)
    (statusUrls : List MirrorUrlRec) (name : String) : Option DetailsJson :=
  match db.mirrors.find? (fun m => decide (m.name = name)) with
  | none => none
  | some mirror =>
    if !authorized && (!mirror.public || !mirror.active) then none
    else some { urls := statusUrls, version := 3 }

/-- Test fixture: a non-public, active mirror. -/
def mPrivate : MirrorRec :=
  { id := 1, name := "m1", tier := 1, public := false, active := true }

/-- Test fixture: a public, active mirror. -/
def mPublic : MirrorRec :=
  { id := 2, name := "m2", tier := 1, public := true, active := true }

/-- Test fixture: a store holding only the non-public mirror. -/
def dbPriv : Db := { mirrors := [mPrivate], urls := [], logs := [] }

/-- Test fixture: an active URL row of the public mirror, no derived data. -/
def uAct : MirrorUrlRec :=
  { id := 10, mirror_id := 2, mirror_tier := 1, url := "a", protocol := "https",
    country := "DE", active := true, last_sync := none, completion_pct := none,
    delay := none, duration_avg := none, duration_stddev := none, score := none }

/-- Test fixture: an inactive URL row of the public mirror. -/
def uInact : MirrorUrlRec :=
  { uAct with
    id := 11
    url := "b"
    active := false }

/-- Test fixture: a failed check log of the inactive URL. -/
def logFail : MirrorLogRec :=
  { id := 2, url_id := 11, check_time := 0, last_sync := none, duration := none,
    is_success := false, location_id := 1 }

/-- Test fixture: the public mirror with one active URL, one inactive URL and
the failed check log of the inactive URL. -/
def dbErr : Db := { mirrors := [mPublic], urls := [uAct, uInact], logs := [logFail] }

/-- Test fixture: the aggregator record of the active URL with derived data. -/
def uCheckedFx : MirrorUrlRec :=
  { uAct with
    completion_pct := some 100
    delay := some 86400000000
    score := some 5 }

/-- Test fixture: the detail context of `dbErr` for an unauthenticated caller
with an empty aggregator output. -/
def ctxC10 : DetailsContext :=
  { mirror := mPublic, urls := [nullDerived uAct],
    cutoff := details_error_cutoff, error_logs := [logFail] }

/-- Test fixture: the detail context of `dbErr` for an unauthenticated caller
whose aggregator output holds the checked active URL. -/
def ctxC45 : DetailsContext :=
  { mirror := mPublic, urls := [uCheckedFx],
    cutoff := details_error_cutoff, error_logs := [logFail] }

/-- A URL row passes the list view's protocol/country subquery filters.  For
an unauthenticated caller the query adds
`mirror__public=True, mirror__active=True, active=True`: the joined mirror
row must exist, be public and active, and the URL row itself be active.  An
authenticated caller sees every row. -/
def urlVisibleInList (db : Db) (authenticated : Bool) (u : MirrorUrlRec) : Bool :=
  authenticated ||
    (u.active &&
      db.mirrors.any (fun m => decide (m.id = u.mirror_id) && m.public && m.active))

/-- The URL rows the list view's subqueries range over. -/
def listVisibleUrls (db : Db) (authenticated : Bool) : List MirrorUrlRec :=
  db.urls.filter (urlVisibleInList db authenticated)

/-- The `order_by('mirror_id', <string column>)` ordering of the subqueries. -/
def pairOrder (a b : Nat × String) : Prop :=
  a.1 < b.1 ∨ (a.1 = b.1 ∧ a.2 ≤ b.2)

instance : DecidableRel pairOrder :=
  fun a b => inferInstanceAs (Decidable (a.1 < b.1 ∨ (a.1 = b.1 ∧ a.2 ≤ b.2)))

/-- The query `values_list('mirror_id', 'country').order_by('mirror_id', 'country')
.distinct()`: the distinct (mirror id, country) pairs, ordered. -/
def countryPairs (db : Db) (authenticated : Bool) : List (Nat × String) :=
  (List.insertionSort pairOrder
    ((listVisibleUrls db authenticated).map (fun u => (u.mirror_id, u.country)))).dedup

/-- The query `values_list('mirror_id', 'protocol__protocol').order_by(...).distinct()`:
the distinct (mirror id, protocol) pairs, ordered. -/
def protocolPairs (db : Db) (authenticated : Bool) : List (Nat × String) :=
  (List.insertionSort pairOrder
    ((listVisibleUrls db authenticated).map (fun u => (u.mirror_id, u.protocol)))).dedup

/-- The `order_by('tier', 'name')` ordering of the mirror list. -/
def mirrorOrder (a b : MirrorRec) : Prop :=
  a.tier < b.tier ∨ (a.tier = b.tier ∧ a.name ≤ b.name)

instance : DecidableRel mirrorOrder :=
  fun a b => inferInstanceAs (Decidable (a.tier < b.tier ∨ (a.tier = b.tier ∧ a.name ≤ b.name)))

/-- One record of the list view's template context: the mirror row with its
attached `protocols` list and resolved `country`. -/
structure MirrorListItem where
  mirror : MirrorRec
  protocols : List String
  country : Option String
deriving DecidableEq

/-- The `mirrors` list view: the mirrors ordered by (tier, name), filtered to
public and active for an unauthenticated caller; each mirror gets the
protocols of its subquery group and, when its group of distinct
(mirror id, country) pairs has exactly one entry, that entry's country
(the dict built from `groupby` on the mirror-id-ordered pairs maps a mirror
id to exactly the pairs carrying it). -/
def mirrorsView (db : Db) (authenticated : Bool) : List MirrorListItem :=
  let mirror_list := List.insertionSort mirrorOrder
    (if authenticated then db.mirrors
     else db.mirrors.filter (fun m => m.public && m.active))
  mirror_list.map (fun m =>
    { mirror := m
      protocols := ((protocolPairs db authenticated).filter
        (fun p => decide (p.1 = m.id))).map (fun p => p.2)
      country :=
        match (countryPairs db authenticated).filter (fun p => decide (p.1 = m.id)) with
        | [p] => some p.2
        | _ => none })

/-- The set of distinct countries over a mirror's visible URLs, as the
specification speaks of it. -/
def mirrorCountrySet (db : Db) (authenticated : Bool) (m : MirrorRec) : Finset String :=
  (((listVisibleUrls db authenticated).filter
    (fun u => decide (u.mirror_id = m.id))).map (fun u => u.country)).toFinset

/-- C8: for every duration value, the JSON encoders serialize it as the
integer `days * 86400 +` whole seconds, which equals the total number of
whole seconds of the duration with the sub-second component dropped
(floor division by 10^6 microseconds); in particular 1 day 5 seconds
serializes as 86405 and a zero duration serializes as 0. -/
theorem c8_duration_serialization :
    (∀ us : Int, timedeltaEncode us = us / 1000000) ∧
    timedeltaEncode 86405000000 = 86405 ∧ timedeltaEncode 0 = 0 := by
  refine ⟨fun us => ?_, by decide, by decide⟩
  unfold timedeltaEncode timedeltaDays timedeltaSeconds
  omega

/-- The partition loop computes order-preserving filters of its input. -/
theorem statusPartition_eq (tier : Option Int) (urls : List MirrorUrlRec) :
    statusPartition tier urls =
      (urls.filter (fun u =>
        tierPass tier u && !decide (u.completion_pct = none) && !delayIsBad u.delay),
       urls.filter (fun u =>
        tierPass tier u && !decide (u.completion_pct = none) && delayIsBad u.delay)) := by
  induction urls with
  | nil => rfl
  | cons v rest ih =>
    by_cases h1 : tierPass tier v = true
    · by_cases h2 : v.completion_pct = none
      · simp [statusPartition, List.filter_cons, h1, h2, ih]
      · by_cases h3 : delayIsBad v.delay = true
        · simp [statusPartition, List.filter_cons, h1, h2, h3, ih]
        · simp [statusPartition, List.filter_cons, h1, h2, h3, ih]
    · simp [statusPartition, List.filter_cons, h1, ih]

/-- The staleness test holds exactly for a null, zero, or over-3-day delay. -/
theorem delayIsBad_iff (d : Option Int) :
    delayIsBad d = true ↔
      d = none ∨ d = some 0 ∨ ∃ x, d = some x ∧ bad_timedelta < x := by
  cases d with
  | none => simp [delayIsBad]
  | some x => simp [delayIsBad]

/-- C1 fails on the code: a URL with non-null completion_pct and a zero delay
(neither null nor greater than 3 days) must by the claim be placed in the
good list, but the code places it in the bad list, because a zero timedelta
is falsy in `not url.delay`. -/
theorem c1_counterexample : ¬ specGoodBadPartition none [uZero] := by
  intro h
  have h3 := (h uZero (by simp) rfl).2.2
  have hmem : uZero ∈ (statusPartition none [uZero]).1 := by
    refine h3 (by decide) (by decide) ?_
    intro d hd
    rw [show uZero.delay = some 0 from rfl] at hd
    injection hd with hd
    rw [← hd]
    decide
  exact absurd hmem (by decide)

/-- C1 (amended): in the status partition, after tier filtering, a URL whose
completion_pct is null appears in neither list; a URL whose delay is null,
zero, or strictly greater than 3 days is placed in the bad list and not the
good list; every other URL is placed in the good list and not the bad list.
The only change from the claim: a zero delay is bad rather than good, since a
zero timedelta is falsy in Python. -/
theorem c1_amended_partition (tier : Option Int) (urls : List MirrorUrlRec)
    (u : MirrorUrlRec) (hu : u ∈ urls) (ht : tierPass tier u = true) :
    (u.completion_pct = none →
      u ∉ (statusPartition tier urls).1 ∧ u ∉ (statusPartition tier urls).2) ∧
    (u.completion_pct ≠ none →
      (u.delay = none ∨ u.delay = some 0 ∨ ∃ d, u.delay = some d ∧ bad_timedelta < d) →
      u ∈ (statusPartition tier urls).2 ∧ u ∉ (statusPartition tier urls).1) ∧
    (u.completion_pct ≠ none →
      (∃ d, u.delay = some d ∧ d ≠ 0 ∧ d ≤ bad_timedelta) →
      u ∈ (statusPartition tier urls).1 ∧ u ∉ (statusPartition tier urls).2) := by
  rw [statusPartition_eq]
  refine ⟨fun h2 => ?_, fun h2 hbad => ?_, fun h2 hgood => ?_⟩
  · constructor <;> simp [List.mem_filter, h2]
  · have hb : delayIsBad u.delay = true := (delayIsBad_iff _).mpr hbad
    constructor <;> simp [List.mem_filter, hu, ht, h2, hb]
  · obtain ⟨d, hd, hdz, hdle⟩ := hgood
    have hb : delayIsBad u.delay = false := by
      rw [hd]
      simp [delayIsBad, hdz, not_lt.mpr hdle]
    constructor <;> simp [List.mem_filter, hu, ht, h2, hb]

theorem c1_amended_partition_witness :
    uGood ∈ (statusPartition none [uGood]).1 ∧
    uGood ∉ (statusPartition none [uGood]).2 :=
  (c1_amended_partition none [uGood] uGood (by decide) (by decide)).2.2 (by decide)
    ⟨86400000000, rfl, by decide, by decide⟩

/-- C3: either status endpoint given a tier outside the configured choices
responds Not-Found, and given a recognized tier proceeds to a response. -/
theorem c3_tier_validation (tierChoices : List Int) (logs : List MirrorLogRec)
    (statusUrls : List MirrorUrlRec) (errorLogs : List ErrorEntry) (t : Int) :
    (t ∉ tierChoices →
      status tierChoices logs statusUrls errorLogs (some t) = none ∧
      status_json tierChoices logs statusUrls (some t) = none) ∧
    (t ∈ tierChoices →
      (status tierChoices logs statusUrls errorLogs (some t)).isSome = true ∧
      (status_json tierChoices logs statusUrls (some t)).isSome = true) := by
  constructor <;> intro h <;> constructor <;> simp [status, status_json, h]

theorem c3_tier_validation_witness :
    (status [1] [] [] [] (some 2) = none ∧ status_json [1] [] [] (some 2) = none) ∧
    ((status [1] [] [] [] (some 1)).isSome = true ∧
     (status_json [1] [] [] (some 1)).isSome = true) :=
  ⟨(c3_tier_validation [1] [] [] [] 2).1 (by decide),
   (c3_tier_validation [1] [] [] [] 1).2 (by decide)⟩

/-- C6 fails on the code: with a four-day-delay URL and a zero-delay URL both
in the bad list, the code sorts the zero delay last (a falsy delay takes the
`or timedelta.max` branch), so the output is not ascending by delay with only
null delays last, as the claim states. -/
theorem c6_counterexample : ¬ specStatusSorted [] [] [uFour, uZero] [] none := by
  intro h
  have h2 := (h (statusBuild [] [uFour, uZero] [] none) rfl).2
  have hb : (statusBuild [] [uFour, uZero] [] none).bad_urls = [uFour, uZero] := by decide
  rw [hb] at h2
  exact absurd ((List.pairwise_cons.mp h2).1 uZero (by simp)) (by decide)

/-- C6 (amended): in the status view's output the good URL list is pairwise
ascending by score, and the bad URL list is pairwise ascending by delay with
a null or a zero delay ordered as the maximum timedelta.  The only change
from the claim: a zero delay also sorts as the maximum, since a zero
timedelta is falsy in `u.delay or timedelta.max`. -/
theorem c6_amended_sorting (tierChoices : List Int) (logs : List MirrorLogRec)
    (statusUrls : List MirrorUrlRec) (errorLogs : List ErrorEntry)
    (tier : Option Int) (ctx : StatusContext)
    (h : status tierChoices logs statusUrls errorLogs tier = some ctx) :
    ctx.good_urls.Pairwise goodOrder ∧ ctx.bad_urls.Pairwise badOrder := by
  have hctx : ctx = statusBuild logs statusUrls errorLogs tier := by
    cases tier with
    | none =>
      simp only [status, Option.some.injEq] at h
      exact h.symm
    | some t =>
      by_cases hmem : t ∈ tierChoices
      · simp only [status, if_pos hmem, Option.some.injEq] at h
        exact h.symm
      · simp [status, hmem] at h
  subst hctx
  exact ⟨List.sorted_insertionSort goodOrder _, List.sorted_insertionSort badOrder _⟩

theorem c6_amended_sorting_witness :
    (statusBuild [] [uGood] [] none).good_urls.Pairwise goodOrder ∧
    (statusBuild [] [uGood] [] none).bad_urls.Pairwise badOrder :=
  c6_amended_sorting [] [] [uGood] [] none (statusBuild [] [uGood] [] none) rfl

/-- SQL MAX(check_time): null exactly on the empty table, else an attained
upper bound of all rows. -/
theorem sqlMaxCheckTime_spec (logs : List MirrorLogRec) :
    (sqlMaxCheckTime logs = none ↔ logs = []) ∧
    ∀ x, sqlMaxCheckTime logs = some x →
      x ∈ logs.map (fun l => l.check_time) ∧ ∀ l ∈ logs, l.check_time ≤ x := by
  induction logs with
  | nil => simp [sqlMaxCheckTime]
  | cons l rest ih =>
    cases hrest : sqlMaxCheckTime rest with
    | none =>
      have hnil : rest = [] := ih.1.mp hrest
      subst hnil
      constructor
      · simp [sqlMaxCheckTime]
      · intro x hx
        simp only [sqlMaxCheckTime, Option.some.injEq] at hx
        subst hx
        simp
    | some t =>
      constructor
      · simp [sqlMaxCheckTime, hrest]
      · intro x hx
        simp only [sqlMaxCheckTime, hrest, Option.some.injEq] at hx
        subst hx
        obtain ⟨ht1, ht2⟩ := ih.2 t hrest
        constructor
        · rcases max_choice l.check_time t with hm | hm <;> rw [hm]
          · simp
          · simp only [List.map_cons, List.mem_cons]
            exact Or.inr ht1
        · intro l' hl'
          rcases List.mem_cons.mp hl' with rfl | hl'
          · exact le_max_left _ _
          · exact le_trans (ht2 l' hl') (le_max_right _ _)

/-- C9: the conditional-GET last-modified value ignores the tier argument, is
null exactly when there are no logs and otherwise the maximum check_time over
all mirror logs, and is the value both the status view and the status JSON
view record for the request whatever the tier. -/
theorem c9_last_modified (logs : List MirrorLogRec) :
    (∀ t₁ t₂ : Option Int, status_last_modified logs t₁ = status_last_modified logs t₂) ∧
    (status_last_modified logs none = none ↔ logs = []) ∧
    (∀ x, status_last_modified logs none = some x →
      x ∈ logs.map (fun l => l.check_time) ∧ ∀ l ∈ logs, l.check_time ≤ x) ∧
    (∀ tierChoices statusUrls errorLogs tier ctx,
      status tierChoices logs statusUrls errorLogs tier = some ctx →
      ctx.last_modified = status_last_modified logs none) ∧
    (∀ tierChoices statusUrls tier js,
      status_json tierChoices logs statusUrls tier = some js →
      js.last_modified = status_last_modified logs none) := by
  refine ⟨fun _ _ => rfl, (sqlMaxCheckTime_spec logs).1, (sqlMaxCheckTime_spec logs).2,
    ?_, ?_⟩
  · intro tc sU eL tier ctx h
    cases tier with
    | none =>
      simp only [status, Option.some.injEq] at h
      rw [← h]
      rfl
    | some t =>
      by_cases hmem : t ∈ tc
      · simp only [status, if_pos hmem, Option.some.injEq] at h
        rw [← h]
        rfl
      · simp [status, hmem] at h
  · intro tc sU tier js h
    cases tier with
    | none =>
      simp only [status_json, Option.some.injEq] at h
      rw [← h]
    | some t =>
      by_cases hmem : t ∈ tc
      · simp only [status_json, if_pos hmem, Option.some.injEq] at h
        rw [← h]
        rfl
      · simp [status_json, hmem] at h

theorem c9_last_modified_witness :
    5 ∈ ([logFive].map (fun l => l.check_time)) ∧
    ∀ l ∈ [logFive], l.check_time ≤ 5 :=
  (c9_last_modified [logFive]).2.2.1 5 rfl

/-- C2: for an unauthenticated request, a mirror that exists but is not
public or not active yields Not-Found from both the HTML and the JSON
mirror detail view, identical to the response for a name matching no mirror;
authorization failure is not distinguishable from absence. -/
theorem c2_auth_indistinguishable (db : Db) (statusUrls : List MirrorUrlRec)
    (nowT : Int) (name name2 : String) (m : MirrorRec)
    (hfind : db.mirrors.find? (fun mr => decide (mr.name = name)) = some m)
    (hpriv : m.public = false ∨ m.active = false)
    (hmiss : db.mirrors.find? (fun mr => decide (mr.name = name2)) = none) :
    mirror_details db false statusUrls nowT name = none ∧
    mirror_details_json db false statusUrls name = none ∧
    mirror_details db false statusUrls nowT name2 = none ∧
    mirror_details_json db false statusUrls name2 = none := by
  rcases hpriv with h | h <;>
    exact ⟨by simp [mirror_details, hfind, h], by simp [mirror_details_json, hfind, h],
           by simp [mirror_details, hmiss], by simp [mirror_details_json, hmiss]⟩

theorem c2_auth_indistinguishable_witness :
    mirror_details dbPriv false [] 0 "m1" = none ∧
    mirror_details_json dbPriv false [] "m1" = none ∧
    mirror_details dbPriv false [] 0 "zzz" = none ∧
    mirror_details_json dbPriv false [] "zzz" = none :=
  c2_auth_indistinguishable dbPriv [] 0 "m1" "zzz" mPrivate (by decide)
    (Or.inl rfl) (by decide)

/-- When the detail view succeeds, its context is the mirror found by name
with the sorted checked/other URL union and the show-all error logs. -/
theorem mirror_details_some (db : Db) (authorized : Bool)
    (statusUrls : List MirrorUrlRec) (nowT : Int) (name : String)
    (m : MirrorRec) (ctx : DetailsContext)
    (hfind : db.mirrors.find? (fun mr => decide (mr.name = name)) = some m)
    (hctx : mirror_details db authorized statusUrls nowT name = some ctx) :
    ctx = { mirror := m
            urls := List.insertionSort urlOrder
              (checkedUrls statusUrls m ++ otherUrls db authorized statusUrls m)
            cutoff := details_error_cutoff
            error_logs := get_mirror_errors db m.id details_error_cutoff true nowT } := by
  simp only [mirror_details, hfind] at hctx
  split at hctx
  · exact absurd hctx (by simp)
  · simp only [Option.some.injEq] at hctx
    exact hctx.symm

/-- C4: in the mirror detail view, every URL of the mirror visible to the
requester whose id is absent from the aggregator's checked set appears in the
output with all six derived fields null; every URL of the checked set appears
in the output with its aggregator-supplied record unchanged; and every output
record whose id is absent from the checked set has all six derived fields
null. -/
theorem c4_null_padding (db : Db) (authorized : Bool)
    (statusUrls : List MirrorUrlRec) (nowT : Int) (name : String)
    (m : MirrorRec) (ctx : DetailsContext)
    (hfind : db.mirrors.find? (fun mr => decide (mr.name = name)) = some m)
    (hctx : mirror_details db authorized statusUrls nowT name = some ctx) :
    (∀ v ∈ mirrorVisibleUrls db authorized m,
      (∀ c ∈ statusUrls, c.mirror_id = m.id → c.id ≠ v.id) →
      nullDerived v ∈ ctx.urls) ∧
    (∀ c ∈ statusUrls, c.mirror_id = m.id → c ∈ ctx.urls) ∧
    (∀ w ∈ ctx.urls,
      (∀ c ∈ statusUrls, c.mirror_id = m.id → c.id ≠ w.id) →
      w.last_sync = none ∧ w.completion_pct = none ∧ w.delay = none ∧
      w.duration_avg = none ∧ w.duration_stddev = none ∧ w.score = none) := by
  have hc := mirror_details_some db authorized statusUrls nowT name m ctx hfind hctx
  subst hc
  refine ⟨?_, ?_, ?_⟩
  · intro v hv hnone
    simp only [List.mem_insertionSort, List.mem_append]
    refine Or.inr ?_
    simp only [otherUrls, List.mem_map]
    refine ⟨v, ?_, rfl⟩
    rw [List.mem_filter]
    refine ⟨hv, ?_⟩
    rw [Bool.not_eq_true', List.any_eq_false]
    intro c hcmem
    simp only [checkedUrls, List.mem_filter, decide_eq_true_eq] at hcmem
    simp only [decide_eq_true_eq]
    exact hnone c hcmem.1 hcmem.2
  · intro c hcmem hcm
    simp only [List.mem_insertionSort, List.mem_append]
    refine Or.inl ?_
    simp only [checkedUrls, List.mem_filter, decide_eq_true_eq]
    exact ⟨hcmem, hcm⟩
  · intro w hw hnone
    simp only [List.mem_insertionSort, List.mem_append] at hw
    rcases hw with hw | hw
    · simp only [checkedUrls, List.mem_filter, decide_eq_true_eq] at hw
      exact absurd rfl (hnone w hw.1 hw.2)
    · simp only [otherUrls, List.mem_map] at hw
      obtain ⟨u, hu, rfl⟩ := hw
      simp [nullDerived]

theorem c4_null_padding_witness :
    nullDerived uInact ∉ ctxC45.urls ∧ uCheckedFx ∈ ctxC45.urls :=
  ⟨by decide,
   (c4_null_padding dbErr false [uCheckedFx] 0 "m2" mPublic ctxC45
     (by decide) (by decide)).2.1 uCheckedFx (by decide) rfl⟩

/-- The visible-URL list is drawn from the URL table. -/
theorem mirrorVisibleUrls_sublist (db : Db) (authorized : Bool) (m : MirrorRec) :
    List.Sublist (mirrorVisibleUrls db authorized m) db.urls := by
  unfold mirrorVisibleUrls
  by_cases h : authorized
  · simp only [h, if_true]
    exact List.filter_sublist _
  · simp only [h, if_false]
    exact (List.filter_sublist _).trans (List.filter_sublist _)

/-- Null-padding keeps the primary key, so the other-URL ids are the ids of
the visible URLs outside the checked set. -/
theorem otherUrls_map_id (db : Db) (authorized : Bool)
    (statusUrls : List MirrorUrlRec) (m : MirrorRec) :
    (otherUrls db authorized statusUrls m).map (fun u => u.id) =
      ((mirrorVisibleUrls db authorized m).filter (fun u =>
        !((checkedUrls statusUrls m).any (fun c => decide (c.id = u.id))))).map
        (fun u => u.id) := by
  unfold otherUrls
  rw [List.map_map]
  rfl

/-- C5: in the mirror detail view, provided the aggregator returns rows with
distinct ids that all belong to the mirror's visible URL set (its database
contract), the rendered URL list has pairwise distinct ids, its id set equals
exactly the id set of the mirror's URLs visible to the requester, and it is
sorted ascending by URL string. -/
theorem c5_url_list_invariant (db : Db) (authorized : Bool)
    (statusUrls : List MirrorUrlRec) (nowT : Int) (name : String)
    (m : MirrorRec) (ctx : DetailsContext)
    (hfind : db.mirrors.find? (fun mr => decide (mr.name = name)) = some m)
    (hctx : mirror_details db authorized statusUrls nowT name = some ctx)
    (hsu : (statusUrls.map (fun u => u.id)).Nodup)
    (hdb : (db.urls.map (fun u => u.id)).Nodup)
    (hagg : ∀ c ∈ statusUrls, c.mirror_id = m.id →
      ∃ w, w ∈ mirrorVisibleUrls db authorized m ∧ w.id = c.id) :
    (ctx.urls.map (fun u => u.id)).Nodup ∧
    (∀ i, i ∈ ctx.urls.map (fun u => u.id) ↔
      i ∈ (mirrorVisibleUrls db authorized m).map (fun u => u.id)) ∧
    ctx.urls.Pairwise urlOrder := by
  have hc := mirror_details_some db authorized statusUrls nowT name m ctx hfind hctx
  subst hc
  have hperm : List.Perm
      ((List.insertionSort urlOrder
        (checkedUrls statusUrls m ++ otherUrls db authorized statusUrls m)).map
        (fun u => u.id))
      ((checkedUrls statusUrls m ++ otherUrls db authorized statusUrls m).map
        (fun u => u.id)) :=
    (List.perm_insertionSort urlOrder _).map _
  have hchecked_sub : List.Sublist (checkedUrls statusUrls m) statusUrls :=
    List.filter_sublist _
  have hchecked_ids : ((checkedUrls statusUrls m).map (fun u => u.id)).Nodup :=
    hsu.sublist (hchecked_sub.map _)
  have hfvis_sub : List.Sublist ((mirrorVisibleUrls db authorized m).filter (fun u =>
      !((checkedUrls statusUrls m).any (fun c => decide (c.id = u.id))))) db.urls :=
    (List.filter_sublist _).trans (mirrorVisibleUrls_sublist db authorized m)
  have hother_ids : ((otherUrls db authorized statusUrls m).map (fun u => u.id)).Nodup := by
    rw [otherUrls_map_id]
    exact hdb.sublist (hfvis_sub.map _)
  have hdisj : List.Disjoint
      ((checkedUrls statusUrls m).map (fun u => u.id))
      ((otherUrls db authorized statusUrls m).map (fun u => u.id)) := by
    intro i hic hio
    rw [otherUrls_map_id] at hio
    simp only [List.mem_map] at hic hio
    obtain ⟨c, hc, rfl⟩ := hic
    obtain ⟨u, hu, hui⟩ := hio
    rw [List.mem_filter, Bool.not_eq_true', List.any_eq_false] at hu
    have := hu.2 c hc
    simp only [decide_eq_true_eq] at this
    exact this (hui ▸ rfl)
  have happ : (((checkedUrls statusUrls m) ++
      (otherUrls db authorized statusUrls m)).map (fun u => u.id)).Nodup := by
    rw [List.map_append, List.nodup_append]
    exact ⟨hchecked_ids, hother_ids, hdisj⟩
  refine ⟨hperm.nodup_iff.mpr happ, ?_, List.sorted_insertionSort urlOrder _⟩
  intro i
  rw [hperm.mem_iff, List.map_append, List.mem_append]
  constructor
  · rintro (hic | hio)
    · simp only [List.mem_map] at hic ⊢
      obtain ⟨c, hc, rfl⟩ := hic
      have hc2 := hc
      simp only [checkedUrls, List.mem_filter, decide_eq_true_eq] at hc2
      obtain ⟨w, hw, hwi⟩ := hagg c hc2.1 hc2.2
      exact ⟨w, hw, hwi⟩
    · rw [otherUrls_map_id] at hio
      simp only [List.mem_map, List.mem_filter] at hio ⊢
      obtain ⟨u, hu, hui⟩ := hio
      exact ⟨u, hu.1, hui⟩
  · intro hiv
    simp only [List.mem_map] at hiv
    obtain ⟨w, hw, rfl⟩ := hiv
    by_cases hcase : (checkedUrls statusUrls m).any (fun c => decide (c.id = w.id)) = true
    · rw [List.any_eq_true] at hcase
      obtain ⟨c, hc, hcid⟩ := hcase
      simp only [decide_eq_true_eq] at hcid
      refine Or.inl ?_
      simp only [List.mem_map]
      exact ⟨c, hc, hcid⟩
    · refine Or.inr ?_
      rw [otherUrls_map_id]
      simp only [List.mem_map, List.mem_filter]
      refine ⟨w, ⟨hw, ?_⟩, rfl⟩
      rw [Bool.not_eq_true']
      exact Bool.of_not_eq_true hcase

theorem c5_url_list_invariant_witness :
    (ctxC45.urls.map (fun u => u.id)).Nodup ∧
    (∀ i, i ∈ ctxC45.urls.map (fun u => u.id) ↔
      i ∈ (mirrorVisibleUrls dbErr false mPublic).map (fun u => u.id)) ∧
    ctxC45.urls.Pairwise urlOrder :=
  c5_url_list_invariant dbErr false [uCheckedFx] 0 "m2" mPublic ctxC45
    (by decide) (by decide) (by decide) (by decide) (by decide)

/-- C10: for an unauthenticated request for a public active mirror, the
detail view's error logs are computed with `show_all=True` — so every failed
in-window check log of any of the mirror's URLs, active or not, is included —
while the rendered URL list carries only active URL records, excluding the
mirror's inactive URLs.  (`hagg` is the aggregator's contract that a
`show_all=False` call returns only active URLs.) -/
theorem c10_error_logs_show_all (db : Db) (statusUrls : List MirrorUrlRec)
    (nowT : Int) (name : String) (m : MirrorRec) (ctx : DetailsContext)
    (hfind : db.mirrors.find? (fun mr => decide (mr.name = name)) = some m)
    (hctx : mirror_details db false statusUrls nowT name = some ctx)
    (hagg : ∀ c ∈ statusUrls, c.active = true) :
    ctx.error_logs = get_mirror_errors db m.id details_error_cutoff true nowT ∧
    (∀ w ∈ ctx.urls, w.active = true) ∧
    (∀ u ∈ db.urls, u.mirror_id = m.id → u.active = false →
      u ∉ ctx.urls ∧
      ∀ l ∈ db.logs, l.url_id = u.id → l.is_success = false →
        nowT - details_error_cutoff ≤ l.check_time → l ∈ ctx.error_logs) := by
  have hc := mirror_details_some db false statusUrls nowT name m ctx hfind hctx
  subst hc
  have hact : ∀ w ∈ List.insertionSort urlOrder
      (checkedUrls statusUrls m ++ otherUrls db false statusUrls m),
      w.active = true := by
    intro w hw
    simp only [List.mem_insertionSort, List.mem_append] at hw
    rcases hw with hw | hw
    · simp only [checkedUrls] at hw
      exact hagg w (List.mem_of_mem_filter hw)
    · simp only [otherUrls, List.mem_map] at hw
      obtain ⟨u, hu, rfl⟩ := hw
      have hu2 := List.mem_of_mem_filter hu
      rw [show mirrorVisibleUrls db false m =
          (db.urls.filter (fun x => decide (x.mirror_id = m.id))).filter
            (fun x => x.active) from by simp [mirrorVisibleUrls]] at hu2
      have hu3 : u.active = true := List.of_mem_filter hu2
      exact hu3
  refine ⟨rfl, hact, ?_⟩
  intro u hu hum hua
  constructor
  · intro hmem
    exact absurd (hact u hmem) (by simp [hua])
  · intro l hl hlu hlf hlw
    simp only [get_mirror_errors, List.mem_filter]
    refine ⟨hl, ?_⟩
    rw [Bool.and_eq_true, Bool.and_eq_true]
    refine ⟨⟨by simp [hlf], by simp [hlw]⟩, ?_⟩
    rw [List.any_eq_true]
    refine ⟨u, hu, ?_⟩
    simp [hlu, hum]

theorem c10_error_logs_show_all_witness :
    uInact ∉ ctxC10.urls ∧ logFail ∈ ctxC10.error_logs :=
  have h := c10_error_logs_show_all dbErr [] 0 "m2" mPublic ctxC10
    (by decide) (by decide) (by simp)
  ⟨(h.2.2 uInact (by decide) rfl rfl).1,
   (h.2.2 uInact (by decide) rfl rfl).2 logFail (by decide) rfl rfl (by decide)⟩

/-- Membership in the distinct (mirror id, country) pairs. -/
theorem mem_countryPairs (db : Db) (authenticated : Bool) (p : Nat × String) :
    p ∈ countryPairs db authenticated ↔
      ∃ u ∈ listVisibleUrls db authenticated,
        u.mirror_id = p.1 ∧ u.country = p.2 := by
  obtain ⟨p1, p2⟩ := p
  unfold countryPairs
  rw [List.mem_dedup, List.mem_insertionSort, List.mem_map]
  constructor
  · rintro ⟨u, hu, huv⟩
    simp only [Prod.mk.injEq] at huv
    exact ⟨u, hu, huv.1, huv.2⟩
  · rintro ⟨u, hu, h1, h2⟩
    refine ⟨u, hu, ?_⟩
    simp only [Prod.mk.injEq]
    exact ⟨h1, h2⟩

/-- C7: for every record in the list view's output, if the set of distinct
countries over that mirror's visible URLs has exactly one element, the
resolved country is that element; with zero or two or more distinct
countries it is null. -/
theorem c7_resolved_country (db : Db) (authenticated : Bool)
    (item : MirrorListItem) (hitem : item ∈ mirrorsView db authenticated) :
    ((mirrorCountrySet db authenticated item.mirror).card = 1 →
      ∃ c, mirrorCountrySet db authenticated item.mirror = {c} ∧
        item.country = some c) ∧
    ((mirrorCountrySet db authenticated item.mirror).card ≠ 1 →
      item.country = none) := by
  simp only [mirrorsView, List.mem_map] at hitem
  obtain ⟨m, hm, rfl⟩ := hitem
  dsimp only
  set F := (countryPairs db authenticated).filter (fun p => decide (p.1 = m.id)) with hF
  have hFnodup : F.Nodup := (List.nodup_dedup _).filter _
  have hmemF : ∀ p, p ∈ F ↔ (p ∈ countryPairs db authenticated ∧ p.1 = m.id) := by
    intro p
    rw [hF, List.mem_filter]
    simp only [decide_eq_true_eq]
  have hsnd_nodup : (F.map (fun p => p.2)).Nodup := by
    refine hFnodup.map_on ?_
    intro x hx y hy hxy
    have hx1 : x.1 = m.id := ((hmemF x).mp hx).2
    have hy1 : y.1 = m.id := ((hmemF y).mp hy).2
    obtain ⟨x1, x2⟩ := x
    obtain ⟨y1, y2⟩ := y
    simp only at hx1 hy1 hxy
    rw [hx1, hy1, hxy]
  have hset : (F.map (fun p => p.2)).toFinset = mirrorCountrySet db authenticated m := by
    ext c
    simp only [List.mem_toFinset, List.mem_map, mirrorCountrySet, List.mem_filter]
    constructor
    · rintro ⟨p, hp, rfl⟩
      have h2 := (hmemF p).mp hp
      obtain ⟨u, hu, hu1, hu2⟩ := (mem_countryPairs db authenticated p).mp h2.1
      refine ⟨u, ⟨hu, ?_⟩, hu2⟩
      simp only [decide_eq_true_eq]
      rw [hu1, h2.2]
    · rintro ⟨u, ⟨hu, hum⟩, rfl⟩
      simp only [decide_eq_true_eq] at hum
      refine ⟨(m.id, u.country), ?_, rfl⟩
      rw [hmemF]
      refine ⟨?_, rfl⟩
      rw [mem_countryPairs]
      exact ⟨u, hu, by rw [hum], rfl⟩
  have hlen : F.length = (mirrorCountrySet db authenticated m).card := by
    rw [← hset, List.toFinset_card_of_nodup hsnd_nodup, List.length_map]
  constructor
  · intro hcard
    have hlen1 : F.length = 1 := by rw [hlen, hcard]
    obtain ⟨p, hp⟩ := List.length_eq_one.mp hlen1
    refine ⟨p.2, ?_, ?_⟩
    · rw [← hset, hp]
      simp
    · rw [hp]
  · intro hcard
    have hlen1 : F.length ≠ 1 := fun h => hcard (by rw [← hlen, h])
    rcases hFcases : F with _ | ⟨p, _ | ⟨q, t⟩⟩
    · rfl
    · refine absurd ?_ hlen1
      rw [hFcases]
      rfl
    · rfl

theorem c7_resolved_country_witness :
    ∃ c, mirrorCountrySet dbErr false mPublic = {c} ∧
      ({ mirror := mPublic, protocols := ["https"], country := some "DE" } :
        MirrorListItem).country = some c :=
  (c7_resolved_country dbErr false
    { mirror := mPublic, protocols := ["https"], country := some "DE" }
    (by decide)).1 (by decide)
